import Mathlib

/-!
Verification of the conversation-context management in script.js of the
chat-widget repository: the transcript store and its trimming policy, the
per-session user context (detected name, past questions), the dynamic
context message, the submit lifecycle with its single-flight guard, and
the backend reply extraction.  All definitions are translated from the
JavaScript source; machine strings are Lean strings, JS arrays are Lean
lists, and the nullable `userContext.name` is an `Option String` whose JS
truthiness (non-null and non-empty) is made explicit.
-/

set_option maxRecDepth 40000

namespace Chatbot

/-- A role-tagged chat message, the `{ role, content }` records stored in
the `messages` array of script.js. -/
structure Msg where
  role : String
  content : String
deriving DecidableEq, Repr

/-- The base system prompt (script.js lines 30-34). -/
def BASE_SYSTEM_PROMPT : String :=
  "You are L’Oréal’s virtual product advisor.\n- Answer only questions related to L’Oréal products, beauty routines, hair care, skincare, makeup, ingredients, and recommendations.\n- If a user asks about unrelated topics, politely redirect them back to L’Oréal products and services.\n- Be friendly, concise, professional and a little funny. Explain ingredients and routines clearly, avoid unverified medical claims.\n- Encourage safe use (e.g., patch tests) and consulting a dermatologist if needed."

/-- The message seeded into the transcript at init (script.js lines 40-42). -/
def baseSystemMsg : Msg := ⟨"system", BASE_SYSTEM_PROMPT⟩

/-- The initial transcript: exactly the base system prompt. -/
def initMessages : List Msg := [baseSystemMsg]

/-- JS `xs.slice(-n)` for a nonnegative integer literal `n`: the last `n`
elements, except that `-0` is `0` in JS, so `slice(-0)` is `slice(0)`,
the whole array. -/
def jsSliceNeg (xs : List α) (n : Nat) : List α :=
  if n = 0 then xs else xs.drop (xs.length - n)

/-- The transcript half of `trimConversation` (script.js lines 206-211):
when the length exceeds `maxMessages`, rebuild the array as `messages[0]`
followed by `messages.slice(-maxMessages)`; otherwise leave it alone.
The `none` branch of `head?` is unreachable because the length guard
forces the list to be non-empty. -/
def trimConversation (ms : List Msg) (maxMessages : Nat := 40) : List Msg :=
  if maxMessages < ms.length then
    match ms.head? with
    | some s => s :: jsSliceNeg ms maxMessages
    | none => ms
  else ms

/-- The pastQuestions half of `trimConversation` (script.js lines 214-216):
a list longer than 20 is cut down to its last 10 entries. -/
def trimPastQuestions (pq : List String) : List String :=
  if 20 < pq.length then jsSliceNeg pq 10 else pq

/-- A submit-lifecycle operation on the transcript: pushing a user message
(script.js line 67), pushing an assistant message (line 82), or running
`trimConversation` (line 74, with its `maxMessages` parameter). -/
inductive Op where
  | user (content : String)
  | assistant (content : String)
  | trim (maxMessages : Nat)

/-- Effect of one operation on the transcript list. -/
def applyOp (ms : List Msg) : Op → List Msg
  | .user c => ms ++ [⟨"user", c⟩]
  | .assistant c => ms ++ [⟨"assistant", c⟩]
  | .trim n => trimConversation ms n

/-- Effect of a sequence of operations, first to last. -/
def applyOps (ms : List Msg) (ops : List Op) : List Msg :=
  ops.foldl applyOp ms

/-- A concrete 45-message transcript: the seeded system message followed by
44 distinct user messages. -/
def ex45 : List Msg :=
  baseSystemMsg :: (List.range 44).map (fun i => ⟨"user", "q" ++ toString i⟩)

lemma applyOp_head (ms : List Msg) (op : Op) (b : Msg) (h : ms.head? = some b) :
    (applyOp ms op).head? = some b := by
  cases op with
  | user c =>
    cases ms with
    | nil => simp at h
    | cons a t => simpa [applyOp] using h
  | assistant c =>
    cases ms with
    | nil => simp at h
    | cons a t => simpa [applyOp] using h
  | trim n =>
    simp only [applyOp, trimConversation]
    split
    · rw [h]
      simp
    · exact h

lemma applyOps_head (ops : List Op) (ms : List Msg) (b : Msg) (h : ms.head? = some b) :
    (applyOps ms ops).head? = some b := by
  induction ops generalizing ms with
  | nil => exact h
  | cons op rest ih => exact ih (applyOp ms op) (applyOp_head ms op b h)

/-- C1: for every sequence of submit-lifecycle operations (user append,
assistant append, trimConversation with any parameter) starting from the
seeded transcript, the transcript is non-empty and its first element is
still the base system-prompt message, whose role is "system". -/
theorem transcript_head_always_system (ops : List Op) :
    applyOps initMessages ops ≠ [] ∧
    (applyOps initMessages ops).head? = some baseSystemMsg ∧
    baseSystemMsg.role = "system" := by
  have h : (applyOps initMessages ops).head? = some baseSystemMsg :=
    applyOps_head ops initMessages baseSystemMsg rfl
  refine ⟨?_, h, rfl⟩
  intro hnil
  rw [hnil] at h
  simp at h

theorem transcript_head_always_system_witness :
    applyOps initMessages [Op.user "hi", Op.assistant "hello", Op.trim 40] ≠ [] ∧
    (applyOps initMessages
        [Op.user "hi", Op.assistant "hello", Op.trim 40]).head? = some baseSystemMsg ∧
    baseSystemMsg.role = "system" :=
  transcript_head_always_system [Op.user "hi", Op.assistant "hello", Op.trim 40]

lemma trimConversation_of_lt (ms : List Msg) (n : Nat) (hpos : 0 < n)
    (hlen : n < ms.length) :
    trimConversation ms n = ms.take 1 ++ ms.drop (ms.length - n) := by
  cases ms with
  | nil => simp at hlen
  | cons a t =>
    have hn : n ≠ 0 := Nat.pos_iff_ne_zero.mp hpos
    simp only [trimConversation, jsSliceNeg, List.head?_cons, if_neg hn, if_pos hlen]
    simp

/-- C2 fails on the code: trimming this 45-message transcript with the
default maxMessages = 40 leaves 41 messages, so the length is not at
most 40. -/
theorem trim40_length_can_exceed_40 :
    ¬ (trimConversation ex45 40).length ≤ 40 := by decide

/-- C2 amended: after trimConversation with the default maxMessages = 40
the transcript length is at most 41, because when the transcript is longer
than 40 the retained messages are the first (system) message plus the most
recent 40 messages. -/
theorem trim40_length_le_41 (ms : List Msg) :
    (trimConversation ms 40).length ≤ 41 ∧
    (40 < ms.length →
      trimConversation ms 40 = ms.take 1 ++ ms.drop (ms.length - 40)) := by
  constructor
  · by_cases h : 40 < ms.length
    · rw [trimConversation_of_lt ms 40 (by omega) h]
      simp only [List.length_append, List.length_take, List.length_drop]
      omega
    · unfold trimConversation
      rw [if_neg h]
      omega
  · intro h
    exact trimConversation_of_lt ms 40 (by omega) h

theorem trim40_length_le_41_witness :
    (trimConversation ex45 40).length ≤ 41 ∧
    (40 < ex45.length ∧
      trimConversation ex45 40 = ex45.take 1 ++ ex45.drop (ex45.length - 40)) :=
  ⟨(trim40_length_le_41 ex45).1, by decide, (trim40_length_le_41 ex45).2 (by decide)⟩

/-- C3 fails at maxMessages = 0: the length of the one-message transcript
exceeds 0, yet the code does not replace it with its first element
followed by the last zero elements (which would be the singleton again),
because JS slice(-0) is slice(0) and returns the whole array behind the
re-attached first element. -/
theorem trim_zero_not_last_slice :
    0 < ([baseSystemMsg] : List Msg).length ∧
    trimConversation [baseSystemMsg] 0 = [baseSystemMsg, baseSystemMsg] ∧
    trimConversation [baseSystemMsg] 0 ≠ [baseSystemMsg] := by decide

/-- C3: with a positive maxMessages, trimConversation replaces a transcript
longer than maxMessages by its first element followed by the last
maxMessages elements of the original sequence, and leaves a transcript of
length at most maxMessages unchanged; in particular on the concrete
45-message transcript with maxMessages = 40 the result is element 0
followed by elements 5 through 44. -/
theorem trimConversation_policy (ms : List Msg) (maxMessages : Nat)
    (hpos : 0 < maxMessages) :
    (maxMessages < ms.length →
       trimConversation ms maxMessages =
         ms.take 1 ++ ms.drop (ms.length - maxMessages)) ∧
    (ms.length ≤ maxMessages → trimConversation ms maxMessages = ms) ∧
    trimConversation ex45 40 = ex45.take 1 ++ ex45.drop 5 := by
  refine ⟨fun h => trimConversation_of_lt ms maxMessages hpos h, fun h => ?_, by decide⟩
  unfold trimConversation
  rw [if_neg (by omega)]

theorem trimConversation_policy_witness :
    0 < 40 ∧ 40 < ex45.length ∧
    trimConversation ex45 40 = ex45.take 1 ++ ex45.drop (ex45.length - 40) :=
  ⟨by decide, by decide, (trimConversation_policy ex45 40 (by decide)).1 (by decide)⟩

/-- C4 fails at maxMessages = 0: on the one-message transcript, whose
length exceeds 0, the tail slice is the whole list and so does not
exclude the first element, the result has 2 elements rather than
maxMessages + 1 = 1, and the leading system message, unique beforehand,
is duplicated by the trim (it occurs twice afterwards). -/
theorem trim_zero_duplicates_head :
    0 < ([baseSystemMsg] : List Msg).length ∧
    jsSliceNeg [baseSystemMsg] 0 = [baseSystemMsg] ∧
    (trimConversation [baseSystemMsg] 0).length ≠ 0 + 1 ∧
    ([baseSystemMsg] : List Msg).count baseSystemMsg = 1 ∧
    (trimConversation [baseSystemMsg] 0).count baseSystemMsg = 2 := by decide

/-- C4: when a transcript longer than maxMessages (positive) is trimmed,
the tail slice starts at least one element in, so it excludes the first
element; the result has exactly maxMessages + 1 elements; and a leading
message that occurred only once before trimming still occurs exactly once,
at index 0, afterwards. -/
theorem trim_no_system_duplication (ms : List Msg) (maxMessages : Nat) (s : Msg)
    (hpos : 0 < maxMessages) (hlen : maxMessages < ms.length)
    (hhead : ms.head? = some s) (hcount : ms.count s = 1) :
    1 ≤ ms.length - maxMessages ∧
    jsSliceNeg ms maxMessages = ms.drop (ms.length - maxMessages) ∧
    (trimConversation ms maxMessages).length = maxMessages + 1 ∧
    (trimConversation ms maxMessages).head? = some s ∧
    (trimConversation ms maxMessages).count s = 1 := by
  cases ms with
  | nil => simp at hhead
  | cons a t =>
    have has : a = s := by simpa using hhead
    subst has
    have heq := trimConversation_of_lt (a :: t) maxMessages hpos hlen
    have hn : maxMessages ≠ 0 := Nat.pos_iff_ne_zero.mp hpos
    have hk : 1 ≤ (a :: t).length - maxMessages := by
      simp only [List.length_cons] at hlen ⊢
      omega
    refine ⟨hk, by simp [jsSliceNeg, hn], ?_, ?_, ?_⟩
    · rw [heq]
      simp only [List.length_append, List.length_take, List.length_drop]
      simp only [List.length_cons] at hlen ⊢
      omega
    · rw [heq]
      simp
    · rw [heq]
      have hdrop : (a :: t).drop ((a :: t).length - maxMessages) =
          t.drop ((a :: t).length - maxMessages - 1) := by
        cases hd : (a :: t).length - maxMessages with
        | zero => omega
        | succ k => simp
      have hct : t.count a = 0 := by
        simp [List.count_cons] at hcount
        exact hcount
      have hle : (t.drop ((a :: t).length - maxMessages - 1)).count a ≤ t.count a :=
        (List.drop_sublist _ _).count_le a
      have hzero : (t.drop ((a :: t).length - maxMessages - 1)).count a = 0 := by
        omega
      rw [hdrop]
      simp only [List.length_cons] at hzero ⊢
      simp [List.count_append, List.count_cons, hzero]

theorem trim_no_system_duplication_witness :
    (0 < 40 ∧ 40 < ex45.length ∧ ex45.head? = some baseSystemMsg ∧
      ex45.count baseSystemMsg = 1) ∧
    1 ≤ ex45.length - 40 ∧
    jsSliceNeg ex45 40 = ex45.drop (ex45.length - 40) ∧
    (trimConversation ex45 40).length = 40 + 1 ∧
    (trimConversation ex45 40).head? = some baseSystemMsg ∧
    (trimConversation ex45 40).count baseSystemMsg = 1 :=
  ⟨⟨by decide, by decide, by decide, by decide⟩,
   trim_no_system_duplication ex45 40 baseSystemMsg (by decide) (by decide)
     (by decide) (by decide)⟩

/-- The per-session user context (script.js lines 24-27): a nullable name
and the list of past questions. -/
structure UserContext where
  name : Option String
  pastQuestions : List String
deriving DecidableEq, Repr

/-- The initial user context: name null, no past questions. -/
def initUserContext : UserContext := ⟨none, []⟩

/-- JS truthiness of the nullable string `userContext.name`: null and the
empty string are falsy, every other string is truthy. -/
def jsTruthyName : Option String → Bool
  | none => false
  | some s => s != ""

/-- The `contextParts` array (script.js lines 156-162): a name sentence
when the name is truthy, then a past-questions sentence when the list is
non-empty, the questions joined by a semicolon and space. -/
def contextParts (ctx : UserContext) : List String :=
  (if jsTruthyName ctx.name then
     ["User\x27s name: " ++ ctx.name.getD "" ++ "."]
   else []) ++
  (if ctx.pastQuestions.length ≠ 0 then
     ["User previously asked about: " ++
        String.intercalate "; " ctx.pastQuestions ++ "."]
   else [])

/-- The `contextBlock` text (script.js lines 164-166): the parts joined by
a space behind the fixed heading, or a sentinel when there are no parts. -/
def contextBlock (ctx : UserContext) : String :=
  if (contextParts ctx).length ≠ 0 then
    "Conversation context: " ++ String.intercalate " " (contextParts ctx)
  else "Conversation context: (none yet)"

/-- The full `buildMessagesWithContext` result (script.js lines 168-176):
the base system message, then a synthetic system message carrying the
context block, then the rest of the transcript. -/
def buildMessagesWithContext (ms : List Msg) (ctx : UserContext) : List Msg :=
  ms.take 1 ++ [⟨"system", contextBlock ctx⟩] ++ ms.drop 1

/-- Modelled on the words of the spec for comparison with the source
translation: the prefix "Conversation context: " followed by the name
sentence when the name is set, the past-questions sentence when there are
past questions, both space-separated when both hold, and the sentinel
"(none yet)" when neither holds. -/
def contextTextSpec (ctx : UserContext) : String :=
  if jsTruthyName ctx.name then
    if ctx.pastQuestions = [] then
      "Conversation context: " ++ ("User\x27s name: " ++ ctx.name.getD "" ++ ".")
    else
      "Conversation context: " ++ ("User\x27s name: " ++ ctx.name.getD "" ++ ".") ++ " " ++
        ("User previously asked about: " ++ String.intercalate "; " ctx.pastQuestions ++ ".")
  else
    if ctx.pastQuestions = [] then "Conversation context: (none yet)"
    else
      "Conversation context: " ++
        ("User previously asked about: " ++ String.intercalate "; " ctx.pastQuestions ++ ".")

lemma string_append_assoc (a b c : String) : a ++ b ++ c = a ++ (b ++ c) :=
  String.ext (by simp)

lemma intercalate_one (s a : String) : String.intercalate s [a] = a := rfl

lemma intercalate_two (s a b : String) :
    String.intercalate s [a, b] = a ++ s ++ b := rfl

/-- C5: the context text built by buildMessagesWithContext agrees with the
construction described by the spec for every user context, and on the two
pinned examples it equals the exact strings the spec gives. -/
theorem contextBlock_matches_spec (ctx : UserContext) :
    contextBlock ctx = contextTextSpec ctx ∧
    contextBlock ⟨some "Ana", ["red lipstick", "dry scalp"]⟩ =
      "Conversation context: User\x27s name: Ana. User previously asked about: red lipstick; dry scalp." ∧
    contextBlock initUserContext = "Conversation context: (none yet)" := by
  refine ⟨?_, by decide, by decide⟩
  cases hq : ctx.pastQuestions with
  | nil =>
    cases hn : jsTruthyName ctx.name with
    | false => simp [contextBlock, contextParts, contextTextSpec, hn, hq]
    | true =>
      simp [contextBlock, contextParts, contextTextSpec, hn, hq, intercalate_one]
  | cons q qs =>
    cases hn : jsTruthyName ctx.name with
    | false =>
      simp [contextBlock, contextParts, contextTextSpec, hn, hq, intercalate_one]
    | true =>
      simp [contextBlock, contextParts, contextTextSpec, hn, hq, intercalate_two,
        string_append_assoc]

/-- Characters of the capture class of the name patterns (script.js lines
188-191): ASCII letters, the Latin-1 letter ranges U+00C0 to U+00D6,
U+00D8 to U+00F6 and U+00F8 to U+00FF, apostrophe, space and hyphen. -/
def isNameChar (c : Char) : Bool :=
  decide (('A' ≤ c ∧ c ≤ 'Z') ∨ ('a' ≤ c ∧ c ≤ 'z') ∨
    ('À' ≤ c ∧ c ≤ 'Ö') ∨ ('Ø' ≤ c ∧ c ≤ 'ö') ∨ ('ø' ≤ c ∧ c ≤ 'ÿ') ∨
    c = '\x27' ∨ c = ' ' ∨ c = '-')

/-- Whitespace characters of the JS regex whitespace escape, restricted to
the ASCII range plus the no-break space; the inputs of this development
only contain plain spaces. -/
def isJsSpace (c : Char) : Bool :=
  c == ' ' || c == '\t' || c == '\n' || c == '\r' ||
  c == '\x0b' || c == '\x0c' || c == '\xa0'

/-- Word characters of the default (non-unicode) JS regex word boundary. -/
def isWordChar (c : Char) : Bool :=
  decide (('A' ≤ c ∧ c ≤ 'Z') ∨ ('a' ≤ c ∧ c ≤ 'z') ∨
    ('0' ≤ c ∧ c ≤ '9') ∨ c = '_')

/-- Case-insensitive test of an ASCII pattern literal against the start of
a text, as the /i flag does for the ASCII-only literals of the patterns. -/
def ciStartsWith : List Char → List Char → Bool
  | [], _ => true
  | _ :: _, [] => false
  | p :: ps, c :: cs => (p.toLower == c.toLower) && ciStartsWith ps cs

/-- Backtracking match for the tail of each pattern, one-or-more
whitespace followed by a greedy capture of at least two class characters:
the whitespace run first takes its maximal length and then gives
characters back one at a time until the capture after it reaches length
two; the capture itself is the maximal class-character run, since nothing
follows it in the pattern. -/
def wsCapture (rest : List Char) : Option (List Char) :=
  go (rest.takeWhile isJsSpace).length
where
  go : Nat → Option (List Char)
    | 0 => none
    | k + 1 =>
      let run := (rest.drop (k + 1)).takeWhile isNameChar
      if 2 ≤ run.length then some run else go k

/-- Scan for the first position at which a pattern matches: an optional
word-boundary assertion before the literal (the literals all start with a
word character, so the assertion holds exactly when the previous character
is absent or not a word character), the case-insensitive literal, then the
whitespace-and-capture tail; on failure the scan moves one character to
the right, carrying the previous character for the boundary test. -/
def scanMatch (needBoundary : Bool) (pat : List Char) :
    Option Char → List Char → Option (List Char)
  | _, [] => none
  | prev, c :: cs =>
    let bOk := !needBoundary ||
      (match prev with
       | none => true
       | some p => !isWordChar p)
    if bOk && ciStartsWith pat (c :: cs) then
      match wsCapture ((c :: cs).drop pat.length) with
      | some cap => some cap
      | none => scanMatch needBoundary pat (some c) cs
    else scanMatch needBoundary pat (some c) cs

/-- The four introduction patterns in priority order (script.js lines
187-192): whether the literal is preceded by a word-boundary assertion,
and the literal itself. -/
def namePatterns : List (Bool × String) :=
  [(false, "my name is"), (true, "i am"), (true, "i\x27m"), (true, "im")]

/-- Capture of the first pattern, in priority order, that matches. -/
def firstNameMatch : List (Bool × String) → List Char → Option (List Char)
  | [], _ => none
  | (b, p) :: rest, cs =>
    match scanMatch b p.toList none cs with
    | some cap => some cap
    | none => firstNameMatch rest cs

/-- JS String.trim on the capture: whitespace stripped from both ends. -/
def trimChars (cs : List Char) : List Char :=
  ((cs.dropWhile isJsSpace).reverse.dropWhile isJsSpace).reverse

/-- The `detectAndStoreName` function (script.js lines 184-201): a no-op
when the stored name is truthy, otherwise the trimmed capture of the first
matching pattern becomes the name.  A capture is always at least two
characters long, so the truthiness test on the captured group in the
source never fails on a match. -/
def detectAndStoreName (ctx : UserContext) (message : String) : UserContext :=
  if jsTruthyName ctx.name then ctx
  else
    match firstNameMatch namePatterns message.toList with
    | some cap => { ctx with name := some (String.mk (trimChars cap)) }
    | none => ctx

/-- C6 fails on the code: on the pinned input the greedy capture class,
which includes spaces, runs to the end of the message, so the stored name
is not "Renae". -/
theorem detect_renae_not_exact :
    (detectAndStoreName initUserContext "Hi, I\x27m Renae and I have dry skin").name ≠
      some "Renae" := by decide

/-- C6 amended: with the name unset, the detector on the pinned input
stores the whole greedy capture "Renae and I have dry skin". -/
theorem detect_renae_overcaptures :
    (detectAndStoreName initUserContext "Hi, I\x27m Renae and I have dry skin").name =
      some "Renae and I have dry skin" := by decide

/-- C7: once the stored name is truthy (non-null and non-empty), the name
detector is a no-op for every later input: the whole user context is
returned unchanged. -/
theorem name_never_overwritten (ctx : UserContext) (msg : String)
    (h : jsTruthyName ctx.name = true) :
    detectAndStoreName ctx msg = ctx := by
  simp [detectAndStoreName, h]

theorem name_never_overwritten_witness :
    jsTruthyName (some "Renae") = true ∧
    detectAndStoreName ⟨some "Renae", []⟩ "my name is Someone Else" =
      ⟨some "Renae", []⟩ :=
  ⟨by decide,
   name_never_overwritten ⟨some "Renae", []⟩ "my name is Someone Else" (by decide)⟩

/-- The session state touched by the submit handler: the transcript, the
user context and the single-flight flag (script.js lines 21-42). -/
structure ChatState where
  messages : List Msg
  userContext : UserContext
  isSending : Bool
deriving DecidableEq, Repr

/-- The state at init: seeded transcript, empty context, not sending. -/
def initState : ChatState := ⟨initMessages, initUserContext, false⟩

/-- Outcome of the awaited backend call: a reply text, or any thrown
error (transport failure, non-2xx status, or unexpected response shape). -/
inductive BackendResult where
  | ok (reply : String)
  | err

/-- The synchronous part of the submit handler once the guards have
passed (script.js lines 59-77): set the flag, push the user message,
record the question, run the name detector, and trim the transcript and
the past questions. -/
def preSend (st : ChatState) (content : String) : ChatState :=
  let ms := st.messages ++ [⟨"user", content⟩]
  let ctx1 := { st.userContext with
                  pastQuestions := st.userContext.pastQuestions ++ [content] }
  let ctx2 := detectAndStoreName ctx1 content
  let ms2 := trimConversation ms 40
  let ctx3 := { ctx2 with pastQuestions := trimPastQuestions ctx2.pastQuestions }
  { messages := ms2, userContext := ctx3, isSending := true }

/-- One full run of the submit handler (script.js lines 51-97), with the
backend outcome passed in as a parameter and a flag reporting whether the
network call was made: a submit while sending, or with a blank input,
returns the state unchanged and makes no call; otherwise the synchronous
part runs, the backend is called, the reply is appended on success and
nothing is appended on failure (the fallback text goes only to the
display), and the finally block always clears the sending flag. -/
def handleSubmit (st : ChatState) (input : String) (result : BackendResult) :
    ChatState × Bool :=
  if st.isSending then (st, false)
  else
    let content := String.mk (trimChars input.toList)
    if content = "" then (st, false)
    else
      let post := preSend st content
      match result with
      | .ok reply =>
        ({ post with
             messages := post.messages ++ [⟨"assistant", reply⟩],
             isSending := false }, true)
      | .err => ({ post with isSending := false }, true)

/-- C8: when the submit guards pass and the backend call fails, the
handler ends in exactly the post-submit state with the sending flag
cleared, so the transcript carries no assistant message and no error
text; and for every backend outcome the sending flag ends false. -/
theorem failure_keeps_transcript (st : ChatState) (input : String)
    (r : BackendResult) (h1 : st.isSending = false)
    (h2 : String.mk (trimChars input.toList) ≠ "") :
    (handleSubmit st input BackendResult.err).1 =
      { preSend st (String.mk (trimChars input.toList)) with isSending := false } ∧
    (handleSubmit st input BackendResult.err).1.messages =
      (preSend st (String.mk (trimChars input.toList))).messages ∧
    (handleSubmit st input r).1.isSending = false := by
  simp only [String.toList] at h2
  refine ⟨?_, ?_, ?_⟩
  · simp [handleSubmit, h1, h2]
  · simp [handleSubmit, h1, h2]
  · cases r <;> simp [handleSubmit, h1, h2]

theorem failure_keeps_transcript_witness :
    (initState.isSending = false ∧ String.mk (trimChars "hello".toList) ≠ "") ∧
    ((handleSubmit initState "hello" BackendResult.err).1 =
       { preSend initState (String.mk (trimChars "hello".toList)) with
           isSending := false } ∧
     (handleSubmit initState "hello" BackendResult.err).1.messages =
       (preSend initState (String.mk (trimChars "hello".toList))).messages ∧
     (handleSubmit initState "hello" (BackendResult.ok "fine")).1.isSending = false) :=
  ⟨⟨by decide, by decide⟩,
   failure_keeps_transcript initState "hello" (BackendResult.ok "fine")
     (by decide) (by decide)⟩

/-- C10: a submit event that arrives while the sending flag is set is a
no-op: the state comes back unchanged (transcript, user context and flag)
and no network call is made, whatever the backend would have answered. -/
theorem submit_while_sending_noop (st : ChatState) (input : String)
    (r : BackendResult) (h : st.isSending = true) :
    handleSubmit st input r = (st, false) := by
  simp [handleSubmit, h]

theorem submit_while_sending_noop_witness :
    ({ initState with isSending := true } : ChatState).isSending = true ∧
    handleSubmit { initState with isSending := true } "hello"
        (BackendResult.ok "reply") =
      ({ initState with isSending := true }, false) :=
  ⟨rfl,
   submit_while_sending_noop { initState with isSending := true } "hello"
     (BackendResult.ok "reply") rfl⟩

/-- A JSON value as delivered by res.json(); numbers are modelled as
integers, which covers every value this development needs. -/
inductive Json where
  | null
  | bool (b : Bool)
  | num (n : Int)
  | str (s : String)
  | arr (elems : List Json)
  | obj (fields : List (String × Json))

/-- JS property access on a parsed JSON value for the plain keys the
source uses: an object yields the value at the key, every other value
(and a missing key) yields undefined, modelled as none. -/
def jsGet (k : String) : Json → Option Json
  | .obj fields => (fields.find? (fun f => f.1 == k)).map (fun f => f.2)
  | _ => none

/-- JS index access with the literal 0: the first array element, the
first character of a string, the "0" key of an object, undefined
otherwise. -/
def jsIndex0 : Json → Option Json
  | .arr (x :: _) => some x
  | .str s =>
    match s.toList with
    | c :: _ => some (.str (String.mk [c]))
    | [] => none
  | .obj fields => (fields.find? (fun f => f.1 == "0")).map (fun f => f.2)
  | _ => none

/-- JS truthiness of a parsed JSON value. -/
def jsTruthy : Json → Bool
  | .null => false
  | .bool b => b
  | .num n => n != 0
  | .str s => s != ""
  | .arr _ => true
  | .obj _ => true

/-- The optional chain over choices, index 0, message and content
(script.js line 234): undefined as soon as one step misses. -/
def contentPath (data : Json) : Option Json :=
  (((jsGet "choices" data).bind jsIndex0).bind (jsGet "message")).bind
    (jsGet "content")

/-- The reply-shape branch (script.js line 239) followed by the thrown
shape error (line 241). -/
def replyField (data : Json) : Except String Json :=
  match jsGet "reply" data with
  | some r =>
    if jsTruthy r then Except.ok r
    else Except.error "Unexpected response shape from Worker"
  | none => Except.error "Unexpected response shape from Worker"

/-- Reply extraction from a 2xx response body (script.js lines 233-241):
the truthiness test on the optional chain, the chain value returned, then
the reply field, then the thrown shape error. -/
def extractReply (data : Json) : Except String Json :=
  match contentPath data with
  | some c => if jsTruthy c then Except.ok c else replyField data
  | none => replyField data

/-- Truthy filter on an optional JSON value. -/
def truthyOpt (o : Option Json) : Option Json :=
  o.bind (fun j => if jsTruthy j then some j else none)

/-- Modelled on the words of the amended claim for comparison with the
source translation: a present and truthy content at the end of the
choices chain wins, otherwise a present and truthy reply field, otherwise
the shape error, and nothing else. -/
def extractReplySpec (data : Json) : Except String Json :=
  match truthyOpt (contentPath data) with
  | some c => Except.ok c
  | none =>
    match truthyOpt (jsGet "reply" data) with
    | some r => Except.ok r
    | none => Except.error "Unexpected response shape from Worker"

/-- A 2xx body that contains choices[0].message.content (the empty text)
and also a reply field. -/
def emptyContentBody : Json :=
  .obj [("choices", .arr [.obj [("message", .obj [("content", .str "")])]]),
        ("reply", .str "hi")]

/-- The pinned success body of the spec. -/
def tryProductXBody : Json :=
  .obj [("choices",
         .arr [.obj [("message", .obj [("content", .str "Try Product X")])]])]

/-- The pinned wrong-shape body of the spec. -/
def fooBarBody : Json := .obj [("foo", .str "bar")]

/-- C9 fails on the code: a body whose choices[0].message.content is the
empty text is not returned as that text, because the source tests the
chain value for truthiness, so the extraction falls through to the reply
field. -/
theorem empty_content_not_returned :
    extractReply emptyContentBody ≠ Except.ok (Json.str "") ∧
    extractReply emptyContentBody = Except.ok (Json.str "hi") := by
  constructor
  · intro h
    have he : extractReply emptyContentBody = Except.ok (Json.str "hi") := rfl
    rw [he] at h
    injection h with h1
    injection h1 with h2
    exact absurd h2 (by decide)
  · rfl

/-- C9 amended: for every 2xx response body, a present and truthy (in
particular any non-empty text) choices[0].message.content is returned
exactly; otherwise a present and truthy reply field is returned;
otherwise the extraction fails with the shape error, and these are the
only outcomes; on the pinned bodies the extraction yields exactly the
text "Try Product X" and the shape error respectively. -/
theorem extractReply_matches_spec (data : Json) :
    extractReply data = extractReplySpec data ∧
    extractReply tryProductXBody = Except.ok (Json.str "Try Product X") ∧
    extractReply fooBarBody =
      Except.error "Unexpected response shape from Worker" := by
  refine ⟨?_, rfl, rfl⟩
  unfold extractReply extractReplySpec truthyOpt replyField
  cases hc : contentPath data with
  | none =>
    simp only [Option.bind]
    cases hr : jsGet "reply" data with
    | none => simp
    | some r => by_cases ht : jsTruthy r <;> simp [ht]
  | some c =>
    by_cases ht : jsTruthy c
    · simp [ht]
    · simp only [Option.some_bind, ht, if_neg, Bool.false_eq_true, if_false]
      cases hr : jsGet "reply" data with
      | none => simp
      | some r => by_cases ht2 : jsTruthy r <;> simp [ht2]

end Chatbot
